import Mathlib

/-!
Verification model of the `shell_protocol` crate: the binary message
schema (`src/lib.rs`), the UDP server dispatch loop and session store
(`src/bin/udp_server.rs`), the TCP per-connection handler
(`src/bin/tcp_server.rs`), and the UDP chunked-upload client loop
(`src/bin/udp_client.rs`).

Machine integers are modelled as `Nat` (every Rust integer involved is
unsigned); bytes are `Nat`s that the encoders keep below 256.  Rust
`String` / `Vec<u8>` values are modelled as their byte sequences
(`List Nat`).  Filesystem paths are modelled as the component lists
produced by Rust `Path::components()` (which drops empty and `"."`
components and keeps `".."` literally); `Path::starts_with` compares
those component lists literally, while the operating system resolves
`".."` only when a path is actually opened — `normalize` models that
resolution.
-/

namespace ShellProtocol

abbrev Byte := Nat
abbrev Str := List Byte

/-- Byte sequence of an ASCII string literal (UTF-8 agrees with the code
points on ASCII, which covers every literal appearing in the sources). -/
def strBytes (s : String) : Str := s.data.map Char.toNat

/-- The `k`-byte little-endian representation of `n` (the fixed-width tail of
a bincode varint). -/
def toLE : Nat → Nat → List Byte
  | 0, _ => []
  | k + 1, n => n % 256 :: toLE k (n / 256)

def fromLE : List Byte → Nat
  | [] => 0
  | b :: bs => b + 256 * fromLE bs

def readLE (k : Nat) (l : List Byte) : Option (Nat × List Byte) :=
  if k ≤ l.length then some (fromLE (l.take k), l.drop k) else none

/-- bincode 2 standard-config varint encoding of an unsigned integer
below `2 ^ 64`: values below 251 are one byte; otherwise a marker byte
251 / 252 / 253 followed by the 2 / 4 / 8-byte little-endian form. -/
def encodeUInt (n : Nat) : List Byte :=
  if n < 251 then [n]
  else if n < 2 ^ 16 then 251 :: toLE 2 n
  else if n < 2 ^ 32 then 252 :: toLE 4 n
  else 253 :: toLE 8 n

def decodeUInt : List Byte → Option (Nat × List Byte)
  | [] => none
  | b :: rest =>
    if b < 251 then some (b, rest)
    else if b = 251 then readLE 2 rest
    else if b = 252 then readLE 4 rest
    else if b = 253 then readLE 8 rest
    else none

/-- bincode encoding of a byte string / byte vector: varint length, then
the raw bytes. -/
def encodeBytes (s : Str) : List Byte := encodeUInt s.length ++ s

def decodeBytes (l : List Byte) : Option (Str × List Byte) :=
  match decodeUInt l with
  | some (n, rest) =>
    if n ≤ rest.length then some (rest.take n, rest.drop n) else none
  | none => none

def encodeBool : Bool → List Byte
  | false => [0]
  | true => [1]

def decodeBool : List Byte → Option (Bool × List Byte)
  | [] => none
  | b :: rest =>
    if b = 0 then some (false, rest)
    else if b = 1 then some (true, rest)
    else none

theorem length_toLE (k n : Nat) : (toLE k n).length = k := by
  induction k generalizing n with
  | zero => rfl
  | succ k ih => simp [toLE, ih]

theorem fromLE_toLE (k n : Nat) (h : n < 256 ^ k) : fromLE (toLE k n) = n := by
  induction k generalizing n with
  | zero =>
    simp [toLE, fromLE]
    omega
  | succ k ih =>
    have hlt : n / 256 < 256 ^ k := by
      rw [Nat.div_lt_iff_lt_mul (by norm_num)]
      calc n < 256 ^ (k + 1) := h
        _ = 256 ^ k * 256 := by ring
    simp [toLE, fromLE, ih _ hlt]
    omega

theorem readLE_toLE (k n : Nat) (t : List Byte) (h : n < 256 ^ k) :
    readLE k (toLE k n ++ t) = some (n, t) := by
  have hlen : (toLE k n).length = k := length_toLE k n
  unfold readLE
  rw [if_pos (by simp [hlen])]
  rw [List.take_left' hlen, List.drop_left' hlen, fromLE_toLE k n h]

theorem decodeUInt_encodeUInt (n : Nat) (t : List Byte) (h : n < 2 ^ 64) :
    decodeUInt (encodeUInt n ++ t) = some (n, t) := by
  unfold encodeUInt
  by_cases h1 : n < 251
  · simp [decodeUInt, h1]
  · by_cases h2 : n < 2 ^ 16
    · rw [if_neg h1, if_pos h2]
      simp only [List.cons_append, decodeUInt]
      norm_num
      exact readLE_toLE 2 n t (by norm_num at h2 ⊢; omega)
    · by_cases h3 : n < 2 ^ 32
      · rw [if_neg h1, if_neg h2, if_pos h3]
        simp only [List.cons_append, decodeUInt]
        norm_num
        exact readLE_toLE 4 n t (by norm_num at h3 ⊢; omega)
      · rw [if_neg h1, if_neg h2, if_neg h3]
        simp only [List.cons_append, decodeUInt]
        norm_num
        exact readLE_toLE 8 n t (by norm_num at h ⊢; omega)

theorem decodeBytes_encodeBytes (s : Str) (t : List Byte)
    (h : s.length < 2 ^ 64) :
    decodeBytes (encodeBytes s ++ t) = some (s, t) := by
  unfold encodeBytes decodeBytes
  rw [List.append_assoc, decodeUInt_encodeUInt s.length (s ++ t) h]
  simp

theorem decodeBool_encodeBool (b : Bool) (t : List Byte) :
    decodeBool (encodeBool b ++ t) = some (b, t) := by
  cases b <;> simp [encodeBool, decodeBool]

/-- Model of `Request` from `src/lib.rs` (variant order fixes the bincode enum
discriminants 0 to 8). -/
inductive Request where
  | Dir
  | CdUp
  | Mkdir (name : Str)
  | Cd (path : Str)
  | Copy (src dst : Str)
  | Upload (dst_path file_name : Str) (size : Nat)
  | Download (src_path : Str)
  | UploadChunk (chunk_id : Nat) (data : List Byte) (is_last : Bool)
  | DownloadChunk (chunk_id : Nat)
deriving DecidableEq

/-- Model of `DirEntry` from `src/lib.rs`. -/
structure DirEntry where
  name : Str
  is_dir : Bool
deriving DecidableEq

/-- Model of `Response` from `src/lib.rs` (variant order fixes the bincode enum
discriminants 0 to 6). -/
inductive Response where
  | Ok
  | DirList (entries : List DirEntry)
  | CopyResult (bytes_copied : Nat)
  | FileMetadata (name : Str) (size : Nat)
  | Error (message : Str)
  | ChunkAck (chunk_id : Nat)
  | FileChunk (chunk_id : Nat) (data : List Byte) (is_last : Bool)
deriving DecidableEq

/-- bincode standard-config encoding of a `Request` (varint `u32`
discriminant followed by the fields in declaration order). -/
def encodeRequest : Request → List Byte
  | .Dir => encodeUInt 0
  | .CdUp => encodeUInt 1
  | .Mkdir name => encodeUInt 2 ++ encodeBytes name
  | .Cd path => encodeUInt 3 ++ encodeBytes path
  | .Copy src dst => encodeUInt 4 ++ encodeBytes src ++ encodeBytes dst
  | .Upload dst_path file_name size =>
    encodeUInt 5 ++ encodeBytes dst_path ++ encodeBytes file_name ++ encodeUInt size
  | .Download src_path => encodeUInt 6 ++ encodeBytes src_path
  | .UploadChunk chunk_id data il =>
    encodeUInt 7 ++ encodeUInt chunk_id ++ encodeBytes data ++ encodeBool il
  | .DownloadChunk chunk_id => encodeUInt 8 ++ encodeUInt chunk_id

def decodeRequest (l : List Byte) : Option (Request × List Byte) :=
  match decodeUInt l with
  | none => none
  | some (tag, r) =>
    if tag = 0 then some (.Dir, r)
    else if tag = 1 then some (.CdUp, r)
    else if tag = 2 then
      match decodeBytes r with
      | some (name, r1) => some (.Mkdir name, r1)
      | none => none
    else if tag = 3 then
      match decodeBytes r with
      | some (path, r1) => some (.Cd path, r1)
      | none => none
    else if tag = 4 then
      match decodeBytes r with
      | some (src, r1) =>
        match decodeBytes r1 with
        | some (dst, r2) => some (.Copy src dst, r2)
        | none => none
      | none => none
    else if tag = 5 then
      match decodeBytes r with
      | some (dst_path, r1) =>
        match decodeBytes r1 with
        | some (file_name, r2) =>
          match decodeUInt r2 with
          | some (size, r3) => some (.Upload dst_path file_name size, r3)
          | none => none
        | none => none
      | none => none
    else if tag = 6 then
      match decodeBytes r with
      | some (src_path, r1) => some (.Download src_path, r1)
      | none => none
    else if tag = 7 then
      match decodeUInt r with
      | some (chunk_id, r1) =>
        match decodeBytes r1 with
        | some (data, r2) =>
          match decodeBool r2 with
          | some (il, r3) => some (.UploadChunk chunk_id data il, r3)
          | none => none
        | none => none
      | none => none
    else if tag = 8 then
      match decodeUInt r with
      | some (chunk_id, r1) => some (.DownloadChunk chunk_id, r1)
      | none => none
    else none

def encodeDirEntry (e : DirEntry) : List Byte :=
  encodeBytes e.name ++ encodeBool e.is_dir

def decodeDirEntry (l : List Byte) : Option (DirEntry × List Byte) :=
  match decodeBytes l with
  | some (name, r) =>
    match decodeBool r with
    | some (d, r1) => some (⟨name, d⟩, r1)
    | none => none
  | none => none

def encodeEntries : List DirEntry → List Byte
  | [] => []
  | e :: es => encodeDirEntry e ++ encodeEntries es

def decodeEntries : Nat → List Byte → Option (List DirEntry × List Byte)
  | 0, l => some ([], l)
  | n + 1, l =>
    match decodeDirEntry l with
    | some (e, r) =>
      match decodeEntries n r with
      | some (es, r1) => some (e :: es, r1)
      | none => none
    | none => none

/-- bincode standard-config encoding of a `Response`. -/
def encodeResponse : Response → List Byte
  | .Ok => encodeUInt 0
  | .DirList entries => encodeUInt 1 ++ encodeUInt entries.length ++ encodeEntries entries
  | .CopyResult bytes_copied => encodeUInt 2 ++ encodeUInt bytes_copied
  | .FileMetadata name size => encodeUInt 3 ++ encodeBytes name ++ encodeUInt size
  | .Error message => encodeUInt 4 ++ encodeBytes message
  | .ChunkAck chunk_id => encodeUInt 5 ++ encodeUInt chunk_id
  | .FileChunk chunk_id data il =>
    encodeUInt 6 ++ encodeUInt chunk_id ++ encodeBytes data ++ encodeBool il

def decodeResponse (l : List Byte) : Option (Response × List Byte) :=
  match decodeUInt l with
  | none => none
  | some (tag, r) =>
    if tag = 0 then some (.Ok, r)
    else if tag = 1 then
      match decodeUInt r with
      | some (n, r1) =>
        match decodeEntries n r1 with
        | some (entries, r2) => some (.DirList entries, r2)
        | none => none
      | none => none
    else if tag = 2 then
      match decodeUInt r with
      | some (n, r1) => some (.CopyResult n, r1)
      | none => none
    else if tag = 3 then
      match decodeBytes r with
      | some (name, r1) =>
        match decodeUInt r1 with
        | some (size, r2) => some (.FileMetadata name size, r2)
        | none => none
      | none => none
    else if tag = 4 then
      match decodeBytes r with
      | some (message, r1) => some (.Error message, r1)
      | none => none
    else if tag = 5 then
      match decodeUInt r with
      | some (chunk_id, r1) => some (.ChunkAck chunk_id, r1)
      | none => none
    else if tag = 6 then
      match decodeUInt r with
      | some (chunk_id, r1) =>
        match decodeBytes r1 with
        | some (data, r2) =>
          match decodeBool r2 with
          | some (il, r3) => some (.FileChunk chunk_id data il, r3)
          | none => none
        | none => none
      | none => none
    else none

/-- A byte string representable on the wire: a Rust `String` / `Vec<u8>`
has length below `2 ^ 64` (`usize`). -/
def strOk (s : Str) : Bool := decide (s.length < 2 ^ 64)

/-- Validity of a `Request` value: its fields satisfy the Rust type
bounds (`u32` / `u64` / `usize`). -/
def Request.valid : Request → Bool
  | .Dir => true
  | .CdUp => true
  | .Mkdir name => strOk name
  | .Cd path => strOk path
  | .Copy src dst => strOk src && strOk dst
  | .Upload dst_path file_name size =>
    strOk dst_path && strOk file_name && decide (size < 2 ^ 64)
  | .Download src_path => strOk src_path
  | .UploadChunk chunk_id data _ => decide (chunk_id < 2 ^ 32) && strOk data
  | .DownloadChunk chunk_id => decide (chunk_id < 2 ^ 32)

/-- Validity of a `Response` value: its fields satisfy the Rust type
bounds (`u32` / `u64` / `usize`). -/
def Response.valid : Response → Bool
  | .Ok => true
  | .DirList entries =>
    decide (entries.length < 2 ^ 64) && entries.all (fun e => strOk e.name)
  | .CopyResult bytes_copied => decide (bytes_copied < 2 ^ 64)
  | .FileMetadata name size => strOk name && decide (size < 2 ^ 64)
  | .Error message => strOk message
  | .ChunkAck chunk_id => decide (chunk_id < 2 ^ 32)
  | .FileChunk chunk_id data _ => decide (chunk_id < 2 ^ 32) && strOk data

theorem decodeRequest_encodeRequest (r : Request) (t : List Byte)
    (h : r.valid = true) :
    decodeRequest (encodeRequest r ++ t) = some (r, t) := by
  cases r with
  | Dir =>
    simp only [encodeRequest, List.append_assoc]
    unfold decodeRequest
    rw [decodeUInt_encodeUInt 0 _ (by norm_num)]
    norm_num
  | CdUp =>
    simp only [encodeRequest, List.append_assoc]
    unfold decodeRequest
    rw [decodeUInt_encodeUInt 1 _ (by norm_num)]
    norm_num
  | Mkdir name =>
    have hn : name.length < 2 ^ 64 := by simpa [Request.valid, strOk] using h
    simp only [encodeRequest, List.append_assoc]
    unfold decodeRequest
    rw [decodeUInt_encodeUInt 2 _ (by norm_num)]
    norm_num
    simp only [decodeBytes_encodeBytes name t hn]
  | Cd path =>
    have hn : path.length < 2 ^ 64 := by simpa [Request.valid, strOk] using h
    simp only [encodeRequest, List.append_assoc]
    unfold decodeRequest
    rw [decodeUInt_encodeUInt 3 _ (by norm_num)]
    norm_num
    simp only [decodeBytes_encodeBytes path t hn]
  | Copy src dst =>
    have hs : src.length < 2 ^ 64 ∧ dst.length < 2 ^ 64 := by
      simpa [Request.valid, strOk] using h
    simp only [encodeRequest, List.append_assoc]
    unfold decodeRequest
    rw [decodeUInt_encodeUInt 4 _ (by norm_num)]
    norm_num
    simp only [decodeBytes_encodeBytes src _ hs.1,
      decodeBytes_encodeBytes dst t hs.2]
  | Upload dst_path file_name size =>
    have hs : (dst_path.length < 2 ^ 64 ∧ file_name.length < 2 ^ 64) ∧
        size < 2 ^ 64 := by
      simpa [Request.valid, strOk, and_assoc] using h
    simp only [encodeRequest, List.append_assoc]
    unfold decodeRequest
    rw [decodeUInt_encodeUInt 5 _ (by norm_num)]
    norm_num
    simp only [decodeBytes_encodeBytes dst_path _ hs.1.1,
      decodeBytes_encodeBytes file_name _ hs.1.2,
      decodeUInt_encodeUInt size t hs.2]
  | Download src_path =>
    have hn : src_path.length < 2 ^ 64 := by
      simpa [Request.valid, strOk] using h
    simp only [encodeRequest, List.append_assoc]
    unfold decodeRequest
    rw [decodeUInt_encodeUInt 6 _ (by norm_num)]
    norm_num
    simp only [decodeBytes_encodeBytes src_path t hn]
  | UploadChunk chunk_id data il =>
    have hs : chunk_id < 2 ^ 32 ∧ data.length < 2 ^ 64 := by
      simpa [Request.valid, strOk] using h
    have hc : chunk_id < 2 ^ 64 := lt_trans hs.1 (by norm_num)
    simp only [encodeRequest, List.append_assoc]
    unfold decodeRequest
    rw [decodeUInt_encodeUInt 7 _ (by norm_num)]
    norm_num
    simp only [decodeUInt_encodeUInt chunk_id _ hc,
      decodeBytes_encodeBytes data _ hs.2,
      decodeBool_encodeBool il t]
  | DownloadChunk chunk_id =>
    have hs : chunk_id < 2 ^ 32 := by simpa [Request.valid] using h
    have hc : chunk_id < 2 ^ 64 := lt_trans hs (by norm_num)
    simp only [encodeRequest, List.append_assoc]
    unfold decodeRequest
    rw [decodeUInt_encodeUInt 8 _ (by norm_num)]
    norm_num
    simp only [decodeUInt_encodeUInt chunk_id t hc]

theorem decodeEntries_encodeEntries (es : List DirEntry) (t : List Byte)
    (h : es.all (fun e => strOk e.name) = true) :
    decodeEntries es.length (encodeEntries es ++ t) = some (es, t) := by
  induction es with
  | nil => simp [encodeEntries, decodeEntries]
  | cons e es ih =>
    simp only [List.all_cons, Bool.and_eq_true, strOk, decide_eq_true_eq] at h
    have hes := ih h.2
    simp only [List.length_cons, encodeEntries, encodeDirEntry,
      List.append_assoc, decodeEntries, decodeDirEntry]
    simp only [decodeBytes_encodeBytes e.name _ h.1,
      decodeBool_encodeBool e.is_dir _, hes]

theorem decodeResponse_encodeResponse (r : Response) (t : List Byte)
    (h : r.valid = true) :
    decodeResponse (encodeResponse r ++ t) = some (r, t) := by
  cases r with
  | Ok =>
    simp only [encodeResponse, List.append_assoc]
    unfold decodeResponse
    rw [decodeUInt_encodeUInt 0 _ (by norm_num)]
    norm_num
  | DirList entries =>
    have hs : entries.length < 2 ^ 64 ∧
        entries.all (fun e => strOk e.name) = true := by
      simpa [Response.valid] using h
    have hes := decodeEntries_encodeEntries entries t hs.2
    simp only [encodeResponse, List.append_assoc]
    unfold decodeResponse
    rw [decodeUInt_encodeUInt 1 _ (by norm_num)]
    norm_num
    simp only [decodeUInt_encodeUInt entries.length _ hs.1, hes]
  | CopyResult bytes_copied =>
    have hn : bytes_copied < 2 ^ 64 := by simpa [Response.valid] using h
    simp only [encodeResponse, List.append_assoc]
    unfold decodeResponse
    rw [decodeUInt_encodeUInt 2 _ (by norm_num)]
    norm_num
    simp only [decodeUInt_encodeUInt bytes_copied t hn]
  | FileMetadata name size =>
    have hs : name.length < 2 ^ 64 ∧ size < 2 ^ 64 := by
      simpa [Response.valid, strOk] using h
    simp only [encodeResponse, List.append_assoc]
    unfold decodeResponse
    rw [decodeUInt_encodeUInt 3 _ (by norm_num)]
    norm_num
    simp only [decodeBytes_encodeBytes name _ hs.1,
      decodeUInt_encodeUInt size t hs.2]
  | Error message =>
    have hn : message.length < 2 ^ 64 := by
      simpa [Response.valid, strOk] using h
    simp only [encodeResponse, List.append_assoc]
    unfold decodeResponse
    rw [decodeUInt_encodeUInt 4 _ (by norm_num)]
    norm_num
    simp only [decodeBytes_encodeBytes message t hn]
  | ChunkAck chunk_id =>
    have hs : chunk_id < 2 ^ 32 := by simpa [Response.valid] using h
    have hc : chunk_id < 2 ^ 64 := lt_trans hs (by norm_num)
    simp only [encodeResponse, List.append_assoc]
    unfold decodeResponse
    rw [decodeUInt_encodeUInt 5 _ (by norm_num)]
    norm_num
    simp only [decodeUInt_encodeUInt chunk_id t hc]
  | FileChunk chunk_id data il =>
    have hs : chunk_id < 2 ^ 32 ∧ data.length < 2 ^ 64 := by
      simpa [Response.valid, strOk] using h
    have hc : chunk_id < 2 ^ 64 := lt_trans hs.1 (by norm_num)
    simp only [encodeResponse, List.append_assoc]
    unfold decodeResponse
    rw [decodeUInt_encodeUInt 6 _ (by norm_num)]
    norm_num
    simp only [decodeUInt_encodeUInt chunk_id _ hc,
      decodeBytes_encodeBytes data _ hs.2,
      decodeBool_encodeBool il t]

/-! ## Path model

A `Path` is the component list of an absolute filesystem path, as
produced by Rust `Path::components()`: the empty list models `"/"`,
empty and `"."` components are dropped, `".."` components are kept
literally. -/

abbrev Path := List Str

def dot : Str := strBytes "."

def dotdot : Str := strBytes ".."

def splitStrAux : Str → Str → List Str
  | [], cur => [cur]
  | b :: bs, cur =>
    if b = 47 then cur :: splitStrAux bs [] else splitStrAux bs (cur ++ [b])

/-- Component list of a path string: split on `'/'` (byte 47), dropping
empty and `"."` components, keeping `".."` literally — the view Rust
`Path::components()` takes of the stored path text. -/
def splitStr (s : Str) : Path :=
  (splitStrAux s []).filter (fun c => decide (c ≠ [] ∧ c ≠ dot))

/-- Rust `PathBuf::join` with a client-supplied string: an absolute
argument (leading `'/'`) replaces the base path, otherwise the
argument's components are appended — no `".."` resolution happens. -/
def joinStr (p : Path) (s : Str) : Path :=
  if s.head? = some 47 then splitStr s else p ++ splitStr s

/-- Rust `Path::parent`: drop the final component; `none` at the
filesystem root `"/"` (the empty component list). -/
def parentPath (p : Path) : Option Path :=
  if p = [] then none else some p.dropLast

/-- Rust `Path::starts_with`: literal component-wise test that `base`
is an initial segment of `p` (again, no `".."` resolution). -/
def pathStartsWith : Path → Path → Bool
  | _, [] => true
  | [], _ :: _ => false
  | c :: cs, b :: bs => decide (c = b) && pathStartsWith cs bs

/-- What the operating system resolves a stored path to when it is
actually opened: `".."` removes the last component (POSIX resolves
`"/.."` to `"/"`, so at the root it stays at the root), `"."`
disappears, other components are appended. -/
def normalize (p : Path) : Path :=
  p.foldl
    (fun acc c =>
      if c = dotdot then acc.dropLast
      else if c = dot then acc
      else acc ++ [c])
    []

/-- Predicate: `p` names a location inside the subtree of `root`: after operating
system resolution it is `root` itself or a descendant of it (`root` is
assumed to be given in resolved form). -/
def underRoot (root p : Path) : Bool := pathStartsWith (normalize p) root

/-! ## Filesystem model

Directories and regular files indexed by resolved (`normalize`d) paths.
Storage itself is modelled as infallible: the `io::Error` branches that
depend on the host environment (permissions, disk full) are not
represented, only existence/shape failures are. -/

structure Fs where
  dirs : List Path
  files : List (Path × List Byte)
deriving DecidableEq

/-- Rust `Path::is_dir`: the operating system resolves the path text
(including `".."`) and checks for a directory. -/
def isDirFs (fs : Fs) (p : Path) : Bool := fs.dirs.contains (normalize p)

/-- Open a file for reading (`File::open` + contents). -/
def lookupFileFs (fs : Fs) (p : Path) : Option (List Byte) :=
  (fs.files.find? (fun kv => kv.1 == normalize p)).map (fun kv => kv.2)

def setFileFs (fs : Fs) (q : Path) (content : List Byte) : Fs :=
  { fs with files := fs.files.filter (fun kv => !(kv.1 == q)) ++ [(q, content)] }

def addDirFs (fs : Fs) (q : Path) : Fs :=
  if fs.dirs.contains q then fs else { fs with dirs := fs.dirs ++ [q] }

def initialSegs (p : Path) : List Path :=
  (List.range (p.length + 1)).map (fun k => p.take k)

/-- Rust `fs::create_dir_all`: ensure the directory and every ancestor
exists (the servers ignore its result). -/
def createDirAll (fs : Fs) (p : Path) : Fs :=
  (initialSegs (normalize p)).foldl addDirFs fs

/-- Rust `fs::create_dir` (used by `Mkdir`): fails if the parent directory
is missing or the target already exists. -/
def mkdirFs (fs : Fs) (p : Path) : Option Fs :=
  let q := normalize p
  if decide (q ≠ []) && fs.dirs.contains q.dropLast
      && !(fs.dirs.contains q) && fs.files.all (fun kv => !(kv.1 == q)) then
    some { fs with dirs := fs.dirs ++ [q] }
  else none

/-- Rust `fs::copy` (used by `Copy`): read the source file and write its
contents to the destination, returning the byte count. -/
def copyFs (fs : Fs) (src dst : Path) : Option (Fs × Nat) :=
  match lookupFileFs fs src with
  | some content =>
    let q := normalize dst
    if fs.dirs.contains q.dropLast && !(fs.dirs.contains q) then
      some (setFileFs fs q content, content.length)
    else none
  | none => none

/-- Rust `File::create`: truncating create; fails if the parent directory is
missing or the path names an existing directory. -/
def fileCreate (fs : Fs) (p : Path) : Option Fs :=
  let q := normalize p
  if decide (q ≠ []) && fs.dirs.contains q.dropLast && !(fs.dirs.contains q) then
    some (setFileFs fs q [])
  else none

/-- Append bytes through the open handle of an upload in progress. -/
def appendFileFs (fs : Fs) (p : Path) (data : List Byte) : Fs :=
  match lookupFileFs fs p with
  | some content => setFileFs fs (normalize p) (content ++ data)
  | none => setFileFs fs (normalize p) data

/-- Rust `fs::read_dir`: the immediate children of a directory, in no
guaranteed order. -/
def listEntries (fs : Fs) (p : Path) : List DirEntry :=
  fs.dirs.filterMap (fun d =>
    match d.getLast? with
    | some nm => if d.dropLast == p then some ⟨nm, true⟩ else none
    | none => none)
  ++ fs.files.filterMap (fun kv =>
    match kv.1.getLast? with
    | some nm => if kv.1.dropLast == p then some ⟨nm, false⟩ else none
    | none => none)

/-! ## Error message texts

Where the Rust source interpolates an `io::Error` / decode error into
the message with `format!`, only the static prefix is modelled: no
claim depends on the interpolated suffix. -/

def msgReadDirFailed : Str := strBytes "read_dir failed"

def msgCannotGoAboveRoot : Str := strBytes "Cannot go above root"

def msgNoParent : Str := strBytes "No parent"

def msgInvalidPath : Str := strBytes "Invalid path or not a directory"

def msgMkdirFailed : Str := strBytes "mkdir failed"

def msgCopyFailed : Str := strBytes "copy failed"

def msgUploadUseChunks : Str := strBytes "Upload should use UploadChunk messages"

def msgDownloadUseChunks : Str := strBytes "Download should use DownloadChunk messages"

def msgUploadChunkMainLoop : Str := strBytes "UploadChunk should be handled in main loop"

def msgDownloadChunkMainLoop : Str := strBytes "DownloadChunk should be handled in main loop"

def msgCannotCreate : Str := strBytes "Cannot create file"

def msgNoActiveUpload : Str := strBytes "No active upload session"

def msgOpenFailed : Str := strBytes "Open failed"

def msgNoActiveDownload : Str := strBytes "No active download session"

def msgInvalidRequest : Str := strBytes "Invalid request"

def msgResponseTooLarge : Str := strBytes "Response too large for UDP"

/-! ## Filesystem operation handler

`handle_fs_request` is textually identical in `udp_server.rs` and
`tcp_server.rs`; this one definition models both.  It receives the
session's current directory by `&mut`, modelled by returning the
possibly-updated directory. -/

def handleFsRequest (fs : Fs) (cwd root : Path) (req : Request) :
    Fs × Path × Response :=
  match req with
  | .Dir =>
    if isDirFs fs cwd then (fs, cwd, .DirList (listEntries fs (normalize cwd)))
    else (fs, cwd, .Error msgReadDirFailed)
  | .CdUp =>
    match parentPath cwd with
    | some parent =>
      if pathStartsWith parent root then (fs, parent, .Ok)
      else (fs, cwd, .Error msgCannotGoAboveRoot)
    | none => (fs, cwd, .Error msgNoParent)
  | .Cd path =>
    let newP := joinStr cwd path
    if isDirFs fs newP && pathStartsWith newP root then (fs, newP, .Ok)
    else (fs, cwd, .Error msgInvalidPath)
  | .Mkdir name =>
    let newP := joinStr cwd name
    match mkdirFs fs newP with
    | some fs1 => (fs1, cwd, .Ok)
    | none => (fs, cwd, .Error msgMkdirFailed)
  | .Copy src dst =>
    let srcP := joinStr cwd src
    let dstP := joinStr cwd dst
    match copyFs fs srcP dstP with
    | some (fs1, n) => (fs1, cwd, .CopyResult n)
    | none => (fs, cwd, .Error msgCopyFailed)
  | .Upload _ _ _ => (fs, cwd, .Error msgUploadUseChunks)
  | .Download _ => (fs, cwd, .Error msgDownloadUseChunks)
  | .UploadChunk _ _ _ => (fs, cwd, .Error msgUploadChunkMainLoop)
  | .DownloadChunk _ => (fs, cwd, .Error msgDownloadChunkMainLoop)

/-! ## UDP session store and dispatch -/

def CHUNK_SIZE : Nat := 8192

def MAX_PAYLOAD_SIZE : Nat := 65000

/-- Model of `UploadState` from `udp_server.rs`.  The open destination `File`
handle is modelled by writing through to the `Fs` at `file_path`. -/
structure UploadState where
  file_path : Path
  expected_size : Nat
  received_bytes : Nat
deriving DecidableEq

/-- Model of `DownloadState` from `udp_server.rs`.  The open source `File`
handle and its cursor are modelled by `contents` and `pos`. -/
structure DownloadState where
  contents : List Byte
  pos : Nat
  file_name : Str
  file_size : Nat
  sent_chunks : Nat
deriving DecidableEq

/-- Model of `ClientSession` from `udp_server.rs`. -/
structure ClientSession where
  cwd : Path
  last_activity : Nat
  upload_file : Option UploadState
  download_file : Option DownloadState
deriving DecidableEq

/-- The session table, keyed by the client's network identity
(`src_addr.to_string()`), abstracted to a `Nat` key. -/
abbrev Sessions := List (Nat × ClientSession)

/-- The sweep `sessions.retain(|_, s| now - s.last_activity < 300)`, run once at
the top of every dispatch-loop iteration (`u64` subtraction truncates
at zero like `Nat` subtraction whenever `last_activity ≤ now`). -/
def sweep (sessions : Sessions) (now : Nat) : Sessions :=
  sessions.filter (fun kv => decide (now - kv.2.last_activity < 300))

def lookupSession (sessions : Sessions) (k : Nat) : Option ClientSession :=
  (sessions.find? (fun kv => kv.1 == k)).map (fun kv => kv.2)

def insertSession (sessions : Sessions) (k : Nat) (s : ClientSession) : Sessions :=
  sessions.filter (fun kv => !(kv.1 == k)) ++ [(k, s)]

/-- The session built by `or_insert_with` for a previously unseen
client identity. -/
def freshSession (root : Path) (now : Nat) : ClientSession :=
  { cwd := root, last_activity := now, upload_file := none, download_file := none }

/-- Rust `full.file_name().and_then(|os| os.to_str()).unwrap_or("file")`:
`file_name()` is `none` when the stored path ends in `".."` or has no
components. -/
def fileNameOf (p : Path) : Str :=
  match p.getLast? with
  | some c => if c == dotdot then strBytes "file" else c
  | none => strBytes "file"

/-- The per-request dispatch of the UDP server's main loop (after
decode and session lookup): `Upload` / `UploadChunk` / `Download` /
`DownloadChunk` are handled inline, everything else is forwarded to
`handle_fs_request` on the session's current directory. -/
def handleUdp (root : Path) (fs : Fs) (sess : ClientSession) (req : Request) :
    Fs × ClientSession × Response :=
  match req with
  | .Upload dst_path file_name size =>
    let dest :=
      if dst_path = dot ∨ dst_path = [] then joinStr sess.cwd file_name
      else joinStr (joinStr sess.cwd dst_path) file_name
    let fs1 :=
      match parentPath dest with
      | some parent => createDirAll fs parent
      | none => fs
    let upSt : UploadState :=
      { file_path := dest, expected_size := size, received_bytes := 0 }
    match fileCreate fs1 dest with
    | some fs2 => (fs2, { sess with upload_file := some upSt }, .Ok)
    | none => (fs1, sess, .Error msgCannotCreate)
  | .UploadChunk chunk_id data il =>
    match sess.upload_file with
    | some up =>
      let fs1 := appendFileFs fs up.file_path data
      let up1 : UploadState :=
        { up with received_bytes := up.received_bytes + data.length }
      if il then (fs1, { sess with upload_file := none }, .ChunkAck chunk_id)
      else (fs1, { sess with upload_file := some up1 }, .ChunkAck chunk_id)
    | none => (fs, sess, .Error msgNoActiveUpload)
  | .Download src_path =>
    let full := joinStr sess.cwd src_path
    match lookupFileFs fs full with
    | some contents =>
      let nm := fileNameOf full
      let dlSt : DownloadState :=
        { contents := contents, pos := 0, file_name := nm,
          file_size := contents.length, sent_chunks := 0 }
      (fs, { sess with download_file := some dlSt }, .FileMetadata nm contents.length)
    | none => (fs, sess, .Error msgOpenFailed)
  | .DownloadChunk chunk_id =>
    match sess.download_file with
    | some dl =>
      let data := (dl.contents.drop dl.pos).take CHUNK_SIZE
      let il : Bool := decide (data.length < CHUNK_SIZE)
      let dl1 : DownloadState :=
        { dl with pos := dl.pos + data.length,
                  sent_chunks := dl.sent_chunks + 1 }
      if il then
        (fs, { sess with download_file := none }, .FileChunk chunk_id data il)
      else
        (fs, { sess with download_file := some dl1 }, .FileChunk chunk_id data il)
    | none => (fs, sess, .Error msgNoActiveDownload)
  | other =>
    let r := handleFsRequest fs sess.cwd root other
    (r.1, { sess with cwd := r.2.1 }, r.2.2)

/-- One inbound datagram of the UDP server's main loop, after the
`sweep` phase: decode the payload (a decode failure sends an `Error`
back and `continue`s without touching the session table), look up or
create the sender's session, stamp its activity, dispatch, and store
the updated session.  The function is total: no request terminates the
loop. -/
def serverStep (root : Path) (fs : Fs) (sessions : Sessions) (now : Nat)
    (src : Nat) (bytes : List Byte) : Fs × Sessions × Response :=
  match decodeRequest bytes with
  | none => (fs, sessions, .Error msgInvalidRequest)
  | some (req, _) =>
    let sess0 := (lookupSession sessions src).getD (freshSession root now)
    let sess1 := { sess0 with last_activity := now }
    let r := handleUdp root fs sess1 req
    (r.1, insertSession sessions src r.2.1, r.2.2)

/-- The UDP server's send phase: encode the response; if the encoding
exceeds `MAX_PAYLOAD_SIZE` substitute the fixed `Error` response and
send that instead.  Returns the bytes actually handed to `send_to`. -/
def sendPhase (resp : Response) : List Byte :=
  let data := encodeResponse resp
  if data.length > MAX_PAYLOAD_SIZE then
    encodeResponse (.Error msgResponseTooLarge)
  else data

/-! ## TCP per-connection handler -/

/-- One iteration of `handle_client` in `tcp_server.rs` over a buffered
inbound byte stream: `none` means the loop exits (`break` on a decode
failure — the code comments "assume connection closed or bad data →
exit" — or an early EOF mid-upload), `some` carries the new filesystem,
current directory, the response sent, and the unconsumed stream.
Streamed raw download bytes travel on the outbound channel, which is
not modelled. -/
def tcpHandleOne (root : Path) (fs : Fs) (cwd : Path) (stream : List Byte) :
    Option (Fs × Path × Response × List Byte) :=
  match decodeRequest stream with
  | none => none
  | some (req, rest) =>
    match req with
    | .Upload dst_path file_name size =>
      let dest :=
        if dst_path = dot ∨ dst_path = [] then joinStr cwd file_name
        else joinStr (joinStr cwd dst_path) file_name
      let fs1 :=
        match parentPath dest with
        | some parent => createDirAll fs parent
        | none => fs
      match fileCreate fs1 dest with
      | some fs2 =>
        if size ≤ rest.length then
          some (setFileFs fs2 (normalize dest) (rest.take size), cwd, .Ok,
                rest.drop size)
        else none
      | none => some (fs1, cwd, .Error msgCannotCreate, rest)
    | .Download src_path =>
      let full := joinStr cwd src_path
      match lookupFileFs fs full with
      | some contents =>
        some (fs, cwd, .FileMetadata (fileNameOf full) contents.length, rest)
      | none => some (fs, cwd, .Error msgOpenFailed, rest)
    | other =>
      let r := handleFsRequest fs cwd root other
      some (r.1, r.2.1, r.2.2, rest)

/-! ## UDP chunked-upload client -/

/-- One `UploadChunk` request sent by `do_upload` in `udp_client.rs`. -/
structure ChunkMsg where
  chunk_id : Nat
  data : List Byte
  is_last : Bool
deriving DecidableEq

/-- The chunk-sending loop of `do_upload`: read up to `CHUNK_SIZE`
bytes (a regular-file read returns the full buffer short of EOF); stop
on an empty read; flag `is_last` when the read came back short; stop
after an `is_last` chunk is acknowledged. -/
def doUploadChunks (chunkId : Nat) (bytes : List Byte) : List ChunkMsg :=
  if h : bytes = [] then []
  else
    let data := bytes.take CHUNK_SIZE
    let il : Bool := decide (data.length < CHUNK_SIZE)
    { chunk_id := chunkId, data := data, is_last := il } ::
      (if il then [] else doUploadChunks (chunkId + 1) (bytes.drop CHUNK_SIZE))
termination_by bytes.length
decreasing_by
  have hb : 0 < bytes.length := List.length_pos.mpr h
  simp only [List.length_drop, CHUNK_SIZE]
  omega

/-! ## Helper lemmas -/

theorem pathStartsWith_refl (p : Path) : pathStartsWith p p = true := by
  induction p with
  | nil => rfl
  | cons c cs ih => simp [pathStartsWith, ih]

theorem length_le_of_pathStartsWith :
    ∀ (p base : Path), pathStartsWith p base = true → base.length ≤ p.length
  | _, [], _ => by simp
  | [], _ :: _, h => by simp [pathStartsWith] at h
  | c :: cs, b :: bs, h => by
    simp only [pathStartsWith, Bool.and_eq_true, decide_eq_true_eq] at h
    have := length_le_of_pathStartsWith cs bs h.2
    simp only [List.length_cons]
    omega

/-! ## Concrete example data

A configured root `/root` on a filesystem where `/` and `/root` exist
(plus a variant carrying the file `/secret`), and a session with a
download in progress. -/

def exRoot : Path := [strBytes "root"]

def exFs : Fs := { dirs := [[], [strBytes "root"]], files := [] }

def exFsSecret : Fs :=
  { dirs := [[], [strBytes "root"]], files := [([strBytes "secret"], [9, 9])] }

def exDl : DownloadState :=
  { contents := [1, 2, 3], pos := 0, file_name := strBytes "f",
    file_size := 3, sent_chunks := 0 }

def exSessD : ClientSession :=
  { cwd := [strBytes "root"], last_activity := 0, upload_file := none,
    download_file := some exDl }

/-! ## Claims -/

/-- C1: the claim says the `Cd` handler succeeds iff the joined path
denotes an existing directory contained within root, and in particular
always fails for paths with `".."` escapes.  The code violates this:
from `cwd = root = /root`, with `/` an existing directory,
`Cd{"../.."}` passes both checks — `is_dir` resolves `/root/../..` to
the existing directory `/`, while `starts_with` compares components
literally, so `/root/../..` counts as starting with `/root` — returns
`Ok`, and moves the current directory to a path resolving outside the
root subtree. -/
theorem c1_cd_dotdot_escape_accepted :
    handleFsRequest exFs exRoot exRoot (.Cd (strBytes "../..")) =
      (exFs, [strBytes "root", dotdot, dotdot], .Ok)
    ∧ underRoot exRoot [strBytes "root", dotdot, dotdot] = false
    ∧ normalize [strBytes "root", dotdot, dotdot] = [] := by
  decide

/-- C2: the claim says the current directory always names a location
inside the root subtree.  The code violates this: starting from a fresh
session at `root`, the single datagram `Cd{"../.."}` is answered `Ok`
and the stored session's current directory becomes `/root/../..`, which
resolves to `/`, outside the root subtree. -/
theorem c2_session_cwd_escapes_root_subtree :
    serverStep exRoot exFs [] 0 7 (encodeRequest (.Cd (strBytes "../.."))) =
      (exFs,
       [(7, { cwd := [strBytes "root", dotdot, dotdot], last_activity := 0,
              upload_file := none, download_file := none })],
       .Ok)
    ∧ underRoot exRoot [strBytes "root", dotdot, dotdot] = false := by
  decide

/-- C3: the claim says the final chunk of every upload carries
`is_last = true`.  The code violates this for files whose size is an
exact positive multiple of 8192: for an 8192-byte file the client sends
exactly one chunk (id 0) with `is_last = false` — the full-buffer read
does not look ahead, and the following empty read just breaks the loop
— so no chunk ever carries `is_last = true`. -/
theorem c3_exact_multiple_loses_last_flag :
    doUploadChunks 0 (List.replicate 8192 0) =
      [{ chunk_id := 0, data := List.replicate 8192 0, is_last := false }] := by
  unfold doUploadChunks
  norm_num [CHUNK_SIZE, List.take_replicate, List.drop_replicate]
  unfold doUploadChunks
  norm_num

/-- C4: encoding any valid `Request` or `Response` value (all variants,
including empty `data` chunks and both `is_last` values) and decoding
the resulting bytes reproduces an equal value with nothing left over. -/
theorem c4_encode_decode_round_trip (req : Request) (resp : Response)
    (h1 : req.valid = true) (h2 : resp.valid = true) :
    decodeRequest (encodeRequest req) = some (req, []) ∧
    decodeResponse (encodeResponse resp) = some (resp, []) := by
  constructor
  · simpa using decodeRequest_encodeRequest req [] h1
  · simpa using decodeResponse_encodeResponse resp [] h2

/-- Witness for C4: a chunk with empty data and `is_last = true`, and a
`FileChunk` with `is_last = false`, both round-trip. -/
theorem c4_encode_decode_round_trip_witness :
    decodeRequest (encodeRequest (.UploadChunk 7 [] true)) =
      some (.UploadChunk 7 [] true, []) ∧
    decodeResponse (encodeResponse (.FileChunk 3 [5, 6] false)) =
      some (.FileChunk 3 [5, 6] false, []) :=
  c4_encode_decode_round_trip _ _ (by decide) (by decide)

/-- C5 counterexample: on the stream transport a decode failure does
not produce an `Error` response — `handle_client` breaks out of its
serving loop (the byte 255 is not a valid varint start, hence the
request is undecodable), refuting the claim that the server surfaces
every decode failure as an `Error` response and never terminates its
serving loop. -/
theorem c5_tcp_decode_failure_ends_loop :
    decodeRequest [255] = none ∧ tcpHandleOne exRoot exFs exRoot [255] = none := by
  decide

/-- C5 (amended): on the datagram transport a request whose bytes fail
to decode is answered with an `Error` response to the originating peer
and the dispatch step leaves the filesystem and the session table
untouched (and `serverStep` is total, so the loop continues); on the
stream transport the same failure ends that connection's serving loop
without a response. -/
theorem c5_decode_failure_behaviour (root : Path) (fs : Fs)
    (sessions : Sessions) (now src : Nat) (cwd : Path) (bytes : List Byte)
    (h : decodeRequest bytes = none) :
    serverStep root fs sessions now src bytes =
      (fs, sessions, .Error msgInvalidRequest)
    ∧ tcpHandleOne root fs cwd bytes = none := by
  constructor
  · unfold serverStep
    rw [h]
  · unfold tcpHandleOne
    rw [h]

/-- Witness for C5 (amended) at the undecodable single byte 255. -/
theorem c5_decode_failure_behaviour_witness :
    serverStep exRoot exFs [] 0 7 [255] = (exFs, [], .Error msgInvalidRequest)
    ∧ tcpHandleOne exRoot exFs exRoot [255] = none :=
  c5_decode_failure_behaviour exRoot exFs [] 0 7 exRoot [255] (by decide)

/-- C6: with an active `download_state`, `DownloadChunk{chunk_id}`
reads up to `CHUNK_SIZE` bytes from the file's current position — the
position advances by exactly the number of bytes read, independently of
the requested `chunk_id` — and replies `FileChunk` echoing the
requested id, carrying the bytes read, with `is_last` true exactly when
the read returned fewer than `CHUNK_SIZE` bytes; `download_state` is
cleared exactly when `is_last` holds (otherwise `sent_chunks` grows by
one). -/
theorem c6_downloadChunk_reads_at_position (root : Path) (fs : Fs)
    (sess : ClientSession) (dl : DownloadState) (cid : Nat)
    (h : sess.download_file = some dl) :
    handleUdp root fs sess (.DownloadChunk cid) =
      (fs,
       ClientSession.mk sess.cwd sess.last_activity sess.upload_file
         (if ((dl.contents.drop dl.pos).take CHUNK_SIZE).length < CHUNK_SIZE then
            none
          else
            some (DownloadState.mk dl.contents
              (dl.pos + ((dl.contents.drop dl.pos).take CHUNK_SIZE).length)
              dl.file_name dl.file_size (dl.sent_chunks + 1))),
       .FileChunk cid ((dl.contents.drop dl.pos).take CHUNK_SIZE)
         (decide (((dl.contents.drop dl.pos).take CHUNK_SIZE).length < CHUNK_SIZE))) := by
  simp [handleUdp, h]
  split
  next hc => simp [hc]
  next hc => simp [hc]

/-- Witness for C6: a 3-byte download served in one short read — the
chunk echoes the requested id 5, carries all 3 bytes, is flagged last,
and the download state is cleared. -/
theorem c6_downloadChunk_reads_at_position_witness :
    handleUdp exRoot exFs exSessD (.DownloadChunk 5) =
      (exFs, { exSessD with download_file := none }, .FileChunk 5 [1, 2, 3] true) := by
  rw [c6_downloadChunk_reads_at_position exRoot exFs exSessD exDl 5 rfl]
  decide

/-- C7: `CdUp` at the configured root always fails with a root-boundary
`Error` ("No parent" when the root is the filesystem root `/`, "Cannot
go above root" otherwise) and leaves the directory unchanged, while
`CdUp` from any direct child of the root succeeds and returns to the
root. -/
theorem c7_cdUp_root_boundary (fs : Fs) (root : Path) (c : Str) :
    handleFsRequest fs root root .CdUp =
      (fs, root, .Error (if root = [] then msgNoParent else msgCannotGoAboveRoot))
    ∧ handleFsRequest fs (root ++ [c]) root .CdUp = (fs, root, .Ok) := by
  constructor
  · cases root with
    | nil => simp [handleFsRequest, parentPath]
    | cons a as =>
      have hfalse : pathStartsWith ((a :: as).dropLast) (a :: as) = false := by
        cases hpw : pathStartsWith ((a :: as).dropLast) (a :: as) with
        | false => rfl
        | true =>
          exfalso
          have hle := length_le_of_pathStartsWith _ _ hpw
          simp [List.length_dropLast] at hle
      simp [handleFsRequest, parentPath, hfalse]
  · have hne : root ++ [c] ≠ [] := by simp
    simp [handleFsRequest, parentPath, hne, pathStartsWith_refl]

/-- C8 counterexample: a session whose idle time is exactly the
300-second threshold — which does not exceed it — is nevertheless
removed by the sweep (`retain` keeps only `now - last_activity < 300`),
refuting the claim that no session whose idle time does not exceed the
threshold is removed. -/
theorem c8_sweep_removes_at_exact_threshold :
    sweep [(0, freshSession exRoot 0)] 300 = []
    ∧ 300 - (freshSession exRoot 0).last_activity ≤ 300 := by
  decide

/-- C8 (amended): the sweep at the start of a dispatch-loop iteration
removes exactly the sessions whose idle time `now - last_activity` is
at least 300 seconds (a session idle exactly 300 seconds is also
removed; none below 300 is), and a request from a client identity with
no stored session is handled against a brand-new session whose current
directory is the root and which has no in-flight `upload_state` or
`download_state`. -/
theorem c8_sweep_eviction_and_fresh_session
    (sessions : Sessions) (now k : Nat) (s : ClientSession)
    (root : Path) (fs : Fs) (sessions2 : Sessions) (now2 src : Nat)
    (bytes : List Byte) (req : Request) (rest : List Byte)
    (hlk : lookupSession sessions2 src = none)
    (hdec : decodeRequest bytes = some (req, rest)) :
    ((k, s) ∈ sweep sessions now ↔
      (k, s) ∈ sessions ∧ now - s.last_activity < 300)
    ∧ serverStep root fs sessions2 now2 src bytes =
        ((handleUdp root fs (freshSession root now2) req).1,
         insertSession sessions2 src (handleUdp root fs (freshSession root now2) req).2.1,
         (handleUdp root fs (freshSession root now2) req).2.2)
    ∧ (freshSession root now2).cwd = root
    ∧ (freshSession root now2).upload_file = none
    ∧ (freshSession root now2).download_file = none := by
  refine ⟨?_, ?_, rfl, rfl, rfl⟩
  · simp [sweep, List.mem_filter]
  · unfold serverStep
    rw [hdec, hlk]
    rfl

/-- Witness for C8 (amended): a session idle 301 seconds is in no sweep
result, and the very first datagram (a `Dir` request) from identity 7
is handled against a fresh session at the root. -/
theorem c8_sweep_eviction_and_fresh_session_witness :
    ((0, freshSession exRoot 0) ∈ sweep [(0, freshSession exRoot 0)] 301 ↔
      (0, freshSession exRoot 0) ∈ [(0, freshSession exRoot 0)] ∧
        301 - (freshSession exRoot 0).last_activity < 300)
    ∧ serverStep exRoot exFs [] 0 7 [0] =
        ((handleUdp exRoot exFs (freshSession exRoot 0) .Dir).1,
         insertSession [] 7 (handleUdp exRoot exFs (freshSession exRoot 0) .Dir).2.1,
         (handleUdp exRoot exFs (freshSession exRoot 0) .Dir).2.2)
    ∧ (freshSession exRoot 0).cwd = exRoot
    ∧ (freshSession exRoot 0).upload_file = none
    ∧ (freshSession exRoot 0).download_file = none :=
  c8_sweep_eviction_and_fresh_session [(0, freshSession exRoot 0)] 301 0
    (freshSession exRoot 0) exRoot exFs [] 0 7 [0] .Dir [] (by decide) (by decide)

/-- C9: whenever the encoded response exceeds `MAX_PAYLOAD_SIZE`, the
datagram server sends the fixed "Response too large for UDP" `Error`
instead — an encoding that itself fits the bound — and never hands the
oversized encoding to `send_to`. -/
theorem c9_oversized_response_substituted (resp : Response)
    (h : (encodeResponse resp).length > MAX_PAYLOAD_SIZE) :
    sendPhase resp = encodeResponse (.Error msgResponseTooLarge)
    ∧ (sendPhase resp).length ≤ MAX_PAYLOAD_SIZE
    ∧ sendPhase resp ≠ encodeResponse resp := by
  have h1 : sendPhase resp = encodeResponse (.Error msgResponseTooLarge) := by
    unfold sendPhase
    rw [if_pos h]
  have h2 : (encodeResponse (.Error msgResponseTooLarge)).length = 28 := by decide
  refine ⟨h1, ?_, ?_⟩
  · rw [h1, h2]
    norm_num [MAX_PAYLOAD_SIZE]
  · rw [h1]
    intro heq
    have hlen := congrArg List.length heq
    rw [h2] at hlen
    rw [MAX_PAYLOAD_SIZE] at h
    omega

/-- Witness for C9: a `FileChunk` whose 65001-byte payload encodes to
65007 bytes, above the 65000-byte bound. -/
theorem c9_oversized_response_substituted_witness :
    sendPhase (.FileChunk 0 (List.replicate 65001 0) false) =
      encodeResponse (.Error msgResponseTooLarge)
    ∧ (sendPhase (.FileChunk 0 (List.replicate 65001 0) false)).length ≤ MAX_PAYLOAD_SIZE
    ∧ sendPhase (.FileChunk 0 (List.replicate 65001 0) false) ≠
        encodeResponse (.FileChunk 0 (List.replicate 65001 0) false) := by
  apply c9_oversized_response_substituted
  have e6 : (encodeUInt 6).length = 1 := by decide
  have e0 : (encodeUInt 0).length = 1 := by decide
  have e65001 : (encodeUInt 65001).length = 3 := by decide
  have eb : (encodeBool false).length = 1 := by decide
  have hlen : (encodeResponse (.FileChunk 0 (List.replicate 65001 0) false)).length
      = 65007 := by
    simp only [encodeResponse, encodeBytes, List.length_append,
      List.length_replicate, e6, e0, e65001, eb]
  rw [hlen, MAX_PAYLOAD_SIZE]
  norm_num

/-- C10: `Upload` and `Download` resolve their paths by joining the
client-supplied components onto the session's current directory with no
containment check against root: the concrete `".."`-bearing values
below resolve outside the root subtree, yet the server answers `Ok` and
creates the uploaded file there, respectively opens the file there and
serves its metadata with an active download state. -/
theorem c10_transfer_paths_unchecked :
    ∃ dst_path file_name src_path : Str,
      dotdot ∈ splitStr dst_path ∧ dotdot ∈ splitStr src_path
      ∧ underRoot exRoot (joinStr (joinStr exRoot dst_path) file_name) = false
      ∧ (handleUdp exRoot exFs (freshSession exRoot 0)
           (.Upload dst_path file_name 3)).2.2 = .Ok
      ∧ (handleUdp exRoot exFs (freshSession exRoot 0)
           (.Upload dst_path file_name 3)).1.files.any
          (fun kv => kv.1 == normalize (joinStr (joinStr exRoot dst_path) file_name))
          = true
      ∧ underRoot exRoot (joinStr exRoot src_path) = false
      ∧ (handleUdp exRoot exFsSecret (freshSession exRoot 0)
           (.Download src_path)).2.2 = .FileMetadata (strBytes "secret") 2
      ∧ (handleUdp exRoot exFsSecret (freshSession exRoot 0)
           (.Download src_path)).2.1.download_file.isSome = true := by
  refine ⟨strBytes "..", strBytes "evil", strBytes "../secret", ?_⟩
  decide

end ShellProtocol
